import Mathlib

/-!
Shallow embedding of the job admission and processing pipeline of
`bot_core.py` (telegram-whisper-bot), together with theorems checking the
natural-language specification against it.

The per-user rate-limit map `user_queue_count` is a Python
`defaultdict(int)`: a plain read of an absent key INSERTS the key with
value 0.  We model the dictionary as an insertion-ordered association
list `List (Int × Int)` and mirror that behaviour exactly.
-/

namespace TWBot

/-- Python dict value read with `defaultdict(int)` semantics:
`m[k]` returns the stored value, or inserts `(k, 0)` at the end
(insertion order) and returns `0` when `k` is absent.
Returns the value together with the (possibly grown) dictionary. -/
def ddRead (m : List (Int × Int)) (k : Int) : Int × List (Int × Int) :=
  match m.lookup k with
  | some v => (v, m)
  | none => (0, m ++ [(k, 0)])

/-- Python dict assignment `m[k] = v`: replaces the value at the first
occurrence of `k`, or appends `(k, v)` when `k` is absent. -/
def dset (m : List (Int × Int)) (k : Int) (v : Int) : List (Int × Int) :=
  match m with
  | [] => [(k, v)]
  | (k', v') :: rest => if k' = k then (k, v) :: rest else (k', v') :: dset rest k v

/-- Python `del m[k]`: removes the entry for `k`. -/
def ddel (m : List (Int × Int)) (k : Int) : List (Int × Int) :=
  m.filter (fun p => p.1 ≠ k)

/-- The count a user observes: stored value, `0` when absent
(the value `defaultdict` reads produce, ignoring the insertion effect). -/
def dget (m : List (Int × Int)) (k : Int) : Int :=
  (m.lookup k).getD 0

/-! Data model: `AudioMessage`, `Job` and the `BotCore` mutable state. -/

/-- Inbound audio descriptor (class `AudioMessage` in `bot_core.py`).
`file_name = none` models Python `None`; the code treats `None` and the
empty string alike (`if not file_name`). -/
structure AudioMessage where
  file_id : String
  file_size : Int
  mime_type : String
  file_name : Option String
  file_unique_id : String
deriving DecidableEq

/-- A queued transcription job (dataclass `Job` in `bot_core.py`). -/
structure Job where
  chat_id : Int
  message_id : Int
  file_id : String
  file_name : String
  mime_type : String
  file_size : Int
  processing_msg_id : Int
deriving DecidableEq

/-- The mutable state of a `BotCore` instance: its configuration scalars,
the FIFO `processing_queue` (front of the list = next to be dequeued) and
the `user_queue_count` defaultdict. -/
structure BotState where
  max_file_size : Int
  max_queue_size : Int
  max_jobs_per_user_in_queue : Int
  processing_queue : List Job
  user_queue_count : List (Int × Int)
deriving DecidableEq

/-! Message texts produced by the code (f-strings rendered with
`toString` standing for Python `str`). -/

def tooLargeText : String := "File is too large. The limit is 2 GB."

def queueFullText (maxQueueSize : Int) : String :=
  "Sorry, the processing queue is full (" ++ toString maxQueueSize ++
    " files). Please try again later."

def rateLimitText (maxJobs currentCount : Int) : String :=
  "You have reached the maximum limit of " ++ toString maxJobs ++
    " audio files in the queue. Please wait for your current jobs to complete. (Currently in queue: " ++
    toString currentCount ++ ")"

/-! Admission control operations, embedded one-for-one from `BotCore`.
Each returns its Python return value together with the updated state,
since `defaultdict` reads mutate the map. -/

/-- `BotCore.validate_audio_file`: size-only validation. -/
def validate_audio_file (s : BotState) (audio : AudioMessage) : Option String :=
  if audio.file_size > s.max_file_size then some tooLargeText else none

/-- `BotCore.is_queue_full`: `qsize() >= max_queue_size`. -/
def is_queue_full (s : BotState) : Bool :=
  (s.processing_queue.length : Int) ≥ s.max_queue_size

/-- `BotCore.can_user_submit_job`: reads `user_queue_count[chat_id]`
(a defaultdict access, which inserts a `0` entry for an absent key) and
compares against the per-user ceiling. -/
def can_user_submit_job (s : BotState) (chat_id : Int) : Bool × BotState :=
  let r := ddRead s.user_queue_count chat_id
  (r.1 < s.max_jobs_per_user_in_queue, { s with user_queue_count := r.2 })

/-- `BotCore.get_user_queue_count`: a defaultdict read of the counter. -/
def get_user_queue_count (s : BotState) (chat_id : Int) : Int × BotState :=
  let r := ddRead s.user_queue_count chat_id
  (r.1, { s with user_queue_count := r.2 })

/-- `BotCore.increment_user_queue_count`:
`user_queue_count[chat_id] += 1` (defaultdict read, then assignment),
returning the new count. -/
def increment_user_queue_count (s : BotState) (chat_id : Int) : Int × BotState :=
  let r := ddRead s.user_queue_count chat_id
  let m := dset r.2 chat_id (r.1 + 1)
  (r.1 + 1, { s with user_queue_count := m })

/-- `BotCore.decrement_user_queue_count`: decrement guarded by
`if count > 0`, then re-read the count and delete the entry when the
re-read count is `0`. -/
def decrement_user_queue_count (s : BotState) (chat_id : Int) : Int × BotState :=
  let r := ddRead s.user_queue_count chat_id
  let m1 := if r.1 > 0 then dset r.2 chat_id (r.1 - 1) else r.2
  let r2 := ddRead m1 chat_id
  let m2 := if r2.1 = 0 then ddel r2.2 chat_id else r2.2
  (r2.1, { s with user_queue_count := m2 })

/-- `BotCore.complete_job`: decrement the admitting user's counter. -/
def complete_job (s : BotState) (job : Job) : BotState :=
  (decrement_user_queue_count s job.chat_id).2

/-! Filename synthesis and job admission. -/

/-- Python `str.split(sep)` for a one-character separator, on the list of
code points: splits at every occurrence of `sep`, keeping empty pieces,
and yields one piece more than there are separators. -/
def splitChar (sep : Char) : List Char → List (List Char)
  | [] => [[]]
  | c :: rest =>
    match splitChar sep rest with
    | [] => [[]]
    | p :: ps => if c = sep then [] :: p :: ps else (c :: p) :: ps

/-- Filename determination inside `BotCore.queue_audio_job`:
`audio.file_name` when truthy; `"voice_message.ogg"` for `audio/ogg`;
otherwise `audio_file_<uniqueId>.<mime_type.split('/')[1]>`, where the
list indexing `[1]` raises `IndexError` (modelled as `none`) when the
MIME type contains no `/`. -/
def resolveFileName (audio : AudioMessage) : Option String :=
  let fn := audio.file_name.getD ""
  if fn ≠ "" then some fn
  else if audio.mime_type = "audio/ogg" then some "voice_message.ogg"
  else
    match (splitChar '/' audio.mime_type.data).get? 1 with
    | some sub => some ("audio_file_" ++ audio.file_unique_id ++ "." ++ String.mk sub)
    | none => none

/-- `BotCore.queue_audio_job`: the admission flow — global queue-full
gate, then per-user ceiling gate, then filename determination (which may
raise, modelled as `none`), then counter increment and enqueue.  The
Python return value `(success, error_message)` is paired with the updated
state. -/
def queue_audio_job (s : BotState) (chat_id message_id : Int) (audio : AudioMessage)
    (processing_msg_id : Int) : Option (Bool × Option String × BotState) :=
  if is_queue_full s then
    some (false, some (queueFullText s.max_queue_size), s)
  else
    let c := can_user_submit_job s chat_id
    if !c.1 then
      let g := get_user_queue_count c.2 chat_id
      some (false, some (rateLimitText s.max_jobs_per_user_in_queue g.1), g.2)
    else
      match resolveFileName audio with
      | none => none
      | some fname =>
        let s2 := (increment_user_queue_count c.2 chat_id).2
        let job : Job :=
          { chat_id := chat_id, message_id := message_id, file_id := audio.file_id,
            file_name := fname, mime_type := audio.mime_type,
            file_size := audio.file_size, processing_msg_id := processing_msg_id }
        some (true, none, { s2 with processing_queue := s2.processing_queue ++ [job] })

/-! Configuration constants (class `Config` in `bot_core.py`).
`MIN_AUDIO_DURATION = 0.1` and the duration `len(audio) / 16000` are
Python floats; for the sample counts involved the float comparisons agree
with exact rational arithmetic, so they are embedded over `ℚ`. -/

def TELEGRAM_MESSAGE_LIMIT : Nat := 4096

def AUDIO_SAMPLE_RATE : Nat := 16000

def TRANSCRIPTION_TIME_FACTOR : ℚ := 13

def MIN_AUDIO_DURATION : ℚ := 1 / 10

/-! Transcription delivery (`BotCore._send_transcription_result`). -/

def headerText : String := "Transcription:\n\n"

def noSpeechText : String := "The audio contained no detectable speech."

def emptyAudioText : String := "The audio file appears to be empty or corrupted."

def tooShortText : String :=
  "The audio file is too short to transcribe (less than 0.1 seconds)."

/-- Python `str.strip()` whitespace predicate (ASCII fragment). -/
def pyIsSpace (c : Char) : Bool :=
  c = ' ' || c = '\t' || c = '\n' || c = '\r' || c = '\x0b' || c = '\x0c'

/-- Python `str.strip()` on the list of code points. -/
def pyStrip (cs : List Char) : List Char :=
  ((cs.dropWhile pyIsSpace).reverse.dropWhile pyIsSpace).reverse

/-- Successive slices `t[i : i + (k+1)]` for `i = 0, k+1, 2(k+1), …`, as
produced by `range(0, len(t), k+1)`; the chunk width is passed as `k+1`
so that it is positive by construction. -/
def chunksOf (k : Nat) : List Char → List (List Char)
  | [] => []
  | c :: rest => (c :: rest).take (k + 1) :: chunksOf k (rest.drop k)
termination_by cs => cs.length
decreasing_by
  simp only [List.length_cons, List.length_drop]
  omega

/-- `BotCore._send_transcription_result`, as the list of message texts it
sends: a single no-speech notice for blank transcriptions, otherwise the
header-prefixed chunks of width `4096 - len(header) = 4080`. -/
def sendTranscriptionResult (transcription : String) : List String :=
  if pyStrip transcription.data = [] then [noSpeechText]
  else
    (chunksOf (TELEGRAM_MESSAGE_LIMIT - headerText.length - 1) transcription.data).map
      (fun ch => headerText ++ String.mk ch)

/-! Error classification (`BotCore._send_error_message`). -/

def downloadFailText : String := "Sorry, failed to download your file. Please try again."

def cannotProcessText : String :=
  "Sorry, this audio file cannot be processed. It may be too short, corrupted, or in an unsupported format."

def transcribeFailText : String :=
  "Sorry, failed to transcribe your audio. The file may be corrupted or in an unsupported format."

def genericErrorText : String := "Sorry, an error occurred while processing your file."

/-- Test that `pat` is a leading segment of `s` (helper for the Python
substring test). -/
def listPrefixTest : List Char → List Char → Bool
  | [], _ => true
  | _ :: _, [] => false
  | a :: as, b :: bs => a = b && listPrefixTest as bs

/-- Test that `pat` occurs contiguously inside `s`. -/
def listInfixTest (pat : List Char) : List Char → Bool
  | [] => listPrefixTest pat []
  | c :: rest => listPrefixTest pat (c :: rest) || listInfixTest pat rest

/-- Python substring test `pat in s` on code points. -/
def containsStr (s pat : String) : Bool :=
  listInfixTest pat.data s.data

/-- Python `str.lower()` on code points (ASCII fragment, matching
`Char.toLower`). -/
def pyLower (s : String) : String :=
  String.mk (s.data.map Char.toLower)

/-- The error-to-message classification performed by
`BotCore._send_error_message` on `str(error).lower()`. -/
def classifyError (error : String) : String :=
  let e := pyLower error
  if containsStr e "download" || containsStr e "file" then downloadFailText
  else if containsStr e "cannot reshape tensor" || containsStr e "tensor of 0 elements" then
    cannotProcessText
  else if containsStr e "transcribe" || containsStr e "whisper" then transcribeFailText
  else genericErrorText

/-! The per-job pipeline (`BotCore.process_audio_job`). -/

/-- Status-message edits performed by the pipeline, as events (the
processing edit carries the raw estimate instead of its float
rendering). -/
inductive EditEvent where
  | tooLarge
  | downloading
  | analyzing
  | processing (estimate : ℚ)
deriving DecidableEq

/-- Environment of one pipeline run: the outcomes of the external
collaborators.  `download` covers `get_messages`/`download_media`
(raising with an error description on failure), `samples` is
`len(whisper.load_audio(path))`, and `transcribe` is the model call
(error description or transcribed text). -/
structure PipeEnv where
  download : Except String Unit
  samples : Nat
  transcribe : Except String String

/-- Observable outcome of one `process_audio_job` run: its boolean return
value, the status edits and messages sent, how many times `complete_job`
released the admission slot, whether the model's transcribe call was
reached, and the resulting state. -/
structure PipeResult where
  success : Bool
  edits : List EditEvent
  sent : List String
  releases : Nat
  transcribeCalled : Bool
  state : BotState

/-- `BotCore.process_audio_job`: size recheck, download, emptiness and
duration checks, transcription, delivery; business failures are caught
and classified.  `complete_job` runs only on the two paths that reach it
in the source — full success and the exception handler — not on the
size-recheck, empty-audio or too-short early returns. -/
def process_audio_job (s : BotState) (job : Job) (env : PipeEnv) : PipeResult :=
  if job.file_size > s.max_file_size then
    { success := false, edits := [.tooLarge], sent := [], releases := 0,
      transcribeCalled := false, state := s }
  else
    match env.download with
    | .error e =>
      { success := false, edits := [.downloading], sent := [classifyError e],
        releases := 1, transcribeCalled := false, state := complete_job s job }
    | .ok _ =>
      let duration : ℚ := (env.samples : ℚ) / (AUDIO_SAMPLE_RATE : ℚ)
      if env.samples = 0 then
        { success := true, edits := [.downloading, .analyzing], sent := [emptyAudioText],
          releases := 0, transcribeCalled := false, state := s }
      else if duration < MIN_AUDIO_DURATION then
        { success := true, edits := [.downloading, .analyzing], sent := [tooShortText],
          releases := 0, transcribeCalled := false, state := s }
      else
        let estimate := max (duration / 60 * TRANSCRIPTION_TIME_FACTOR) 2
        match env.transcribe with
        | .error e =>
          { success := false,
            edits := [.downloading, .analyzing, .processing estimate],
            sent := [classifyError e], releases := 1, transcribeCalled := true,
            state := complete_job s job }
        | .ok text =>
          { success := true,
            edits := [.downloading, .analyzing, .processing estimate],
            sent := sendTranscriptionResult text, releases := 1, transcribeCalled := true,
            state := complete_job s job }

/-! Lemmas about the dictionary primitives. -/

theorem lookup_cons (rest : List (Int × Int)) (k v j : Int) :
    List.lookup j ((k, v) :: rest) = if j = k then some v else List.lookup j rest := by
  by_cases h : j = k
  · have hb : (j == k) = true := beq_iff_eq.mpr h
    simp [List.lookup, hb, h]
  · have hb : (j == k) = false := beq_eq_false_iff_ne.mpr h
    simp [List.lookup, hb, h]

theorem lookup_append (m₁ m₂ : List (Int × Int)) (k : Int) :
    (m₁ ++ m₂).lookup k =
      match m₁.lookup k with
      | some v => some v
      | none => m₂.lookup k := by
  induction m₁ with
  | nil => simp
  | cons p rest ih =>
    obtain ⟨k', v'⟩ := p
    by_cases h : k = k' <;> simp [lookup_cons, h, ih]

theorem ddRead_fst (m : List (Int × Int)) (k : Int) : (ddRead m k).1 = dget m k := by
  unfold ddRead dget
  cases h : m.lookup k <;> simp [h]

theorem lookup_ddRead (m : List (Int × Int)) (k : Int) :
    (ddRead m k).2.lookup k = some (dget m k) := by
  unfold ddRead dget
  cases h : m.lookup k with
  | some v => simp [h]
  | none => simp [h, lookup_append, lookup_cons]

theorem dget_ddRead (m : List (Int × Int)) (k j : Int) :
    dget (ddRead m k).2 j = dget m j := by
  unfold ddRead
  cases h : m.lookup k with
  | some v => simp
  | none =>
    unfold dget
    rw [lookup_append]
    cases hj : m.lookup j with
    | some w => simp
    | none =>
      by_cases hkj : j = k
      · subst hkj; simp [hj, lookup_cons]
      · simp [lookup_cons, hkj, hj]

theorem lookup_dset_self (m : List (Int × Int)) (k : Int) (v : Int) :
    (dset m k v).lookup k = some v := by
  induction m with
  | nil => simp [dset, lookup_cons]
  | cons p rest ih =>
    obtain ⟨k', v'⟩ := p
    by_cases h : k' = k
    · simp [dset, h, lookup_cons]
    · simp [dset, h, lookup_cons, Ne.symm h, ih]

theorem lookup_dset_other (m : List (Int × Int)) (k j : Int) (v : Int) (hj : j ≠ k) :
    (dset m k v).lookup j = m.lookup j := by
  induction m with
  | nil => simp [dset, lookup_cons, hj]
  | cons p rest ih =>
    obtain ⟨k', v'⟩ := p
    by_cases h : k' = k
    · subst h; simp [dset, lookup_cons, hj]
    · by_cases h2 : j = k'
      · subst h2; simp [dset, h, lookup_cons]
      · simp [dset, h, lookup_cons, h2, ih]

theorem mem_dset (m : List (Int × Int)) (k : Int) (v : Int) (p : Int × Int)
    (hp : p ∈ dset m k v) : p = (k, v) ∨ p ∈ m := by
  induction m with
  | nil => simpa [dset] using hp
  | cons q rest ih =>
    obtain ⟨k', v'⟩ := q
    by_cases h : k' = k
    · simp [dset, h] at hp
      rcases hp with h1 | h1
      · exact Or.inl h1
      · exact Or.inr (List.mem_cons_of_mem _ h1)
    · simp [dset, h] at hp
      rcases hp with h1 | h1
      · exact Or.inr (by simp [h1])
      · rcases ih h1 with h2 | h2
        · exact Or.inl h2
        · exact Or.inr (List.mem_cons_of_mem _ h2)

theorem lookup_ddel_self (m : List (Int × Int)) (k : Int) :
    (ddel m k).lookup k = none := by
  induction m with
  | nil => simp [ddel]
  | cons p rest ih =>
    obtain ⟨k', v'⟩ := p
    by_cases h : k' = k
    · simpa [ddel, h] using ih
    · simpa [ddel, h, lookup_cons, Ne.symm h] using ih

theorem lookup_ddel_other (m : List (Int × Int)) (k j : Int) (hj : j ≠ k) :
    (ddel m k).lookup j = m.lookup j := by
  induction m with
  | nil => simp [ddel]
  | cons p rest ih =>
    obtain ⟨k', v'⟩ := p
    by_cases h : k' = k
    · subst h
      simpa [ddel, lookup_cons, hj] using ih
    · by_cases h2 : j = k'
      · subst h2; simp [ddel, h, lookup_cons]
      · simpa [ddel, h, lookup_cons, h2] using ih

theorem mem_ddel (m : List (Int × Int)) (k : Int) (p : Int × Int)
    (hp : p ∈ ddel m k) : p ∈ m := by
  exact List.mem_of_mem_filter hp

theorem mem_ddel_ne (m : List (Int × Int)) (k : Int) (p : Int × Int)
    (hp : p ∈ ddel m k) : p ∈ m ∧ p.1 ≠ k := by
  unfold ddel at hp
  have := List.mem_filter.mp hp
  exact ⟨this.1, by simpa using this.2⟩

theorem lookup_mem (m : List (Int × Int)) (k v : Int) (h : m.lookup k = some v) :
    (k, v) ∈ m := by
  induction m with
  | nil => simp [List.lookup] at h
  | cons p rest ih =>
    obtain ⟨k', v'⟩ := p
    rw [lookup_cons] at h
    by_cases hk : k = k'
    · rw [if_pos hk] at h
      have hv : v' = v := by injection h
      subst hk; subst hv; exact List.mem_cons_self _ _
    · rw [if_neg hk] at h
      exact List.mem_cons_of_mem _ (ih h)

theorem dget_nonneg_of_allpos (m : List (Int × Int)) (k : Int)
    (h : ∀ p ∈ m, 0 < p.2) : 0 ≤ dget m k := by
  unfold dget
  cases hl : m.lookup k with
  | none => simp
  | some v => simpa using le_of_lt (h (k, v) (lookup_mem m k v hl))

theorem dset_allpos (m : List (Int × Int)) (k v : Int) (hv : 0 < v)
    (h : ∀ p ∈ m, 0 < p.2) : ∀ p ∈ dset m k v, 0 < p.2 := by
  induction m with
  | nil => intro p hp; simp [dset] at hp; simpa [hp]
  | cons q rest ih =>
    obtain ⟨k', v'⟩ := q
    intro p hp
    by_cases hk : k' = k
    · simp [dset, hk] at hp
      rcases hp with h1 | h1
      · simpa [h1]
      · exact h p (List.mem_cons_of_mem _ h1)
    · simp only [dset, if_neg hk, List.mem_cons] at hp
      rcases hp with h1 | h1
      · exact h p (by simp [h1])
      · exact ih (fun q hq => h q (List.mem_cons_of_mem _ hq)) p h1

theorem dset_append_absent (m : List (Int × Int)) (k v : Int)
    (h : m.lookup k = none) : dset (m ++ [(k, 0)]) k v = m ++ [(k, v)] := by
  induction m with
  | nil => simp [dset]
  | cons p rest ih =>
    obtain ⟨k', v'⟩ := p
    rw [lookup_cons] at h
    by_cases hk : k = k'
    · simp [hk] at h
    · have hk' : k' ≠ k := fun he => hk he.symm
      rw [if_neg hk] at h
      simp [dset, hk', ih h]

/-! Characterization of the release operation. -/

theorem decrement_map_eq (s : BotState) (u : Int) :
    (decrement_user_queue_count s u).2.user_queue_count =
      match s.user_queue_count.lookup u with
      | none => ddel (s.user_queue_count ++ [(u, 0)]) u
      | some v =>
        if 0 < v then
          (if v - 1 = 0 then ddel (dset s.user_queue_count u (v - 1)) u
           else dset s.user_queue_count u (v - 1))
        else
          (if v = 0 then ddel s.user_queue_count u else s.user_queue_count) := by
  unfold decrement_user_queue_count
  cases h : s.user_queue_count.lookup u with
  | none =>
    have hl : (s.user_queue_count ++ [(u, 0)]).lookup u = some 0 := by
      rw [lookup_append, h, lookup_cons]
      simp
    simp only [ddRead, h]
    rw [if_neg (by omega : ¬ (0 : Int) > 0)]
    simp only [hl]
    simp
  | some v =>
    simp only [ddRead, h]
    by_cases hv : v > 0
    · rw [if_pos hv, lookup_dset_self]
      dsimp only
      rw [if_pos (show (0 : Int) < v from hv)]
    · rw [if_neg hv, h]
      dsimp only
      rw [if_neg (show ¬ (0 : Int) < v from hv)]

theorem decrement_dget_self (s : BotState) (u : Int) :
    dget (decrement_user_queue_count s u).2.user_queue_count u =
      if 0 < dget s.user_queue_count u then dget s.user_queue_count u - 1
      else dget s.user_queue_count u := by
  rw [decrement_map_eq]
  cases h : s.user_queue_count.lookup u with
  | none =>
    dsimp only
    have hd : dget s.user_queue_count u = 0 := by simp [dget, h]
    rw [hd]
    simp [dget, lookup_ddel_self]
  | some v =>
    dsimp only
    have hd : dget s.user_queue_count u = v := by simp [dget, h]
    rw [hd]
    by_cases hv : 0 < v
    · rw [if_pos hv]
      by_cases hz : v - 1 = 0
      · rw [if_pos hz]
        simp [dget, lookup_ddel_self, hz, hv]
      · rw [if_neg hz]
        simp [dget, lookup_dset_self, hv]
    · rw [if_neg hv]
      by_cases hz2 : v = 0
      · rw [if_pos hz2]
        simp [dget, lookup_ddel_self, hz2, hv]
      · rw [if_neg hz2]
        simp [dget, h, hv]

theorem decrement_lookup_none_iff (s : BotState) (u : Int) :
    ((decrement_user_queue_count s u).2.user_queue_count.lookup u = none ↔
      dget (decrement_user_queue_count s u).2.user_queue_count u = 0) := by
  rw [decrement_map_eq]
  cases h : s.user_queue_count.lookup u with
  | none =>
    dsimp only
    simp [dget, lookup_ddel_self]
  | some v =>
    dsimp only
    by_cases hv : 0 < v
    · rw [if_pos hv]
      by_cases hz : v - 1 = 0
      · rw [if_pos hz]
        simp [dget, lookup_ddel_self]
      · rw [if_neg hz]
        simp [dget, lookup_dset_self, hz]
    · rw [if_neg hv]
      by_cases hz : v = 0
      · rw [if_pos hz]
        simp [dget, lookup_ddel_self]
      · rw [if_neg hz]
        simp [dget, h, hz]

theorem decrement_allpos (s : BotState) (u : Int)
    (h : ∀ p ∈ s.user_queue_count, 0 < p.2) :
    ∀ p ∈ (decrement_user_queue_count s u).2.user_queue_count, 0 < p.2 := by
  rw [decrement_map_eq]
  cases hl : s.user_queue_count.lookup u with
  | none =>
    dsimp only
    intro p hp
    have h2 := mem_ddel_ne _ _ _ hp
    rcases List.mem_append.mp h2.1 with h3 | h3
    · exact h p h3
    · exfalso
      have : p = (u, 0) := by simpa using h3
      exact h2.2 (by simp [this])
  | some v =>
    dsimp only
    have hv : 0 < v := h (u, v) (lookup_mem _ _ _ hl)
    rw [if_pos hv]
    by_cases hz : v - 1 = 0
    · rw [if_pos hz]
      intro p hp
      have h2 := mem_ddel_ne _ _ _ hp
      rcases mem_dset _ _ _ _ h2.1 with h3 | h3
      · exact absurd (by simp [h3]) h2.2
      · exact h p h3
    · rw [if_neg hz]
      exact dset_allpos _ _ _ (by omega) h

theorem increment_map_eq (s : BotState) (u : Int) :
    (increment_user_queue_count s u).2.user_queue_count =
      match s.user_queue_count.lookup u with
      | none => s.user_queue_count ++ [(u, 1)]
      | some v => dset s.user_queue_count u (v + 1) := by
  unfold increment_user_queue_count
  cases hl : s.user_queue_count.lookup u with
  | none =>
    simp only [ddRead, hl]
    rw [dset_append_absent _ _ _ hl]
    norm_num
  | some v => simp only [ddRead, hl]

theorem increment_allpos (s : BotState) (u : Int)
    (h : ∀ p ∈ s.user_queue_count, 0 < p.2) :
    ∀ p ∈ (increment_user_queue_count s u).2.user_queue_count, 0 < p.2 := by
  rw [increment_map_eq]
  cases hl : s.user_queue_count.lookup u with
  | none =>
    dsimp only
    intro p hp
    rcases List.mem_append.mp hp with h3 | h3
    · exact h p h3
    · have : p = (u, 1) := by simpa using h3
      simp [this]
  | some v =>
    dsimp only
    have hv : 0 < v := h (u, v) (lookup_mem _ _ _ hl)
    exact dset_allpos _ _ _ (by omega) h

theorem increment_dget_self (s : BotState) (u : Int) :
    dget (increment_user_queue_count s u).2.user_queue_count u =
      dget s.user_queue_count u + 1 := by
  rw [increment_map_eq]
  cases hl : s.user_queue_count.lookup u with
  | none =>
    dsimp only
    unfold dget
    rw [lookup_append, hl, lookup_cons, if_pos rfl]
    simp [hl]
  | some v =>
    dsimp only
    unfold dget
    rw [lookup_dset_self]
    simp [hl]

theorem get_user_queue_count_dget (s : BotState) (c u : Int) :
    dget (get_user_queue_count s c).2.user_queue_count u = dget s.user_queue_count u :=
  dget_ddRead s.user_queue_count c u

theorem can_user_submit_job_dget (s : BotState) (c u : Int) :
    dget (can_user_submit_job s c).2.user_queue_count u = dget s.user_queue_count u :=
  dget_ddRead s.user_queue_count c u

theorem can_user_submit_job_fst (s : BotState) (c : Int) :
    (can_user_submit_job s c).1 =
      decide (dget s.user_queue_count c < s.max_jobs_per_user_in_queue) := by
  unfold can_user_submit_job
  dsimp only
  rw [ddRead_fst]

theorem get_user_queue_count_fst (s : BotState) (c : Int) :
    (get_user_queue_count s c).1 = dget s.user_queue_count c := by
  unfold get_user_queue_count
  dsimp only
  rw [ddRead_fst]

theorem listPrefixTest_iff (pat : List Char) :
    ∀ s, listPrefixTest pat s = true ↔ pat <+: s := by
  induction pat with
  | nil => intro s; simp [listPrefixTest]
  | cons a as ih =>
    intro s
    cases s with
    | nil => simp [listPrefixTest]
    | cons b bs =>
      simp only [listPrefixTest, Bool.and_eq_true, decide_eq_true_eq, List.cons_prefix_cons]
      constructor
      · rintro ⟨h1, h2⟩; exact ⟨h1, (ih bs).mp h2⟩
      · rintro ⟨h1, h2⟩; exact ⟨h1, (ih bs).mpr h2⟩

theorem listInfixTest_iff (pat : List Char) :
    ∀ s, listInfixTest pat s = true ↔ pat <:+: s := by
  intro s
  induction s with
  | nil =>
    simp only [listInfixTest]
    rw [listPrefixTest_iff]
    simp [List.infix_nil, List.prefix_nil]
  | cons c rest ih =>
    simp only [listInfixTest, Bool.or_eq_true]
    rw [listPrefixTest_iff, ih, List.infix_cons_iff]

theorem containsStr_of_middle (a tmid b : String) :
    containsStr (a ++ tmid ++ b) tmid = true := by
  unfold containsStr
  rw [listInfixTest_iff]
  exact ⟨a.data, b.data, by simp [String.data_append]⟩

theorem splitChar_ne_nil (sep : Char) (cs : List Char) : splitChar sep cs ≠ [] := by
  cases cs with
  | nil => simp [splitChar]
  | cons c rest =>
    unfold splitChar
    cases h : splitChar sep rest with
    | nil => simp
    | cons p ps =>
      by_cases hc : c = sep <;> simp [hc]

theorem splitChar_length (sep : Char) (cs : List Char) :
    (splitChar sep cs).length = cs.count sep + 1 := by
  induction cs with
  | nil => simp [splitChar]
  | cons c rest ih =>
    unfold splitChar
    cases h : splitChar sep rest with
    | nil => exact absurd h (splitChar_ne_nil sep rest)
    | cons p ps =>
      rw [h] at ih
      by_cases hc : c = sep
      · simp only [hc, if_pos rfl, List.length_cons, List.count_cons]
        simp only [List.length_cons] at ih
        simp [ih]
      · have hcs : ¬ (c == sep) = true := by simpa using hc
        simp only [if_neg hc, List.length_cons, List.count_cons]
        simp only [List.length_cons] at ih
        simp [ih, hcs]

theorem splitChar_get1_isSome (sep : Char) (cs : List Char) :
    ((splitChar sep cs).get? 1).isSome = true ↔ sep ∈ cs := by
  rw [Option.isSome_iff_ne_none]
  constructor
  · intro h
    have hlen : 1 < (splitChar sep cs).length := by
      by_contra hle
      exact h (List.get?_eq_none.mpr (by omega))
    rw [splitChar_length] at hlen
    have : 0 < cs.count sep := by omega
    exact List.count_pos_iff.mp this
  · intro h
    have : 0 < cs.count sep := List.count_pos_iff.mpr h
    have hlen : 1 < (splitChar sep cs).length := by
      rw [splitChar_length]; omega
    intro hn
    rw [List.get?_eq_none] at hn
    omega

theorem chunksOf_join_aux (k : Nat) :
    ∀ (n : Nat) (cs : List Char), cs.length ≤ n → (chunksOf k cs).flatten = cs := by
  intro n
  induction n with
  | zero =>
    intro cs h
    cases cs with
    | nil => simp [chunksOf]
    | cons c rest => simp at h
  | succ n ih =>
    intro cs h
    cases cs with
    | nil => simp [chunksOf]
    | cons c rest =>
      rw [chunksOf]
      have hlen : (rest.drop k).length ≤ n := by
        simp only [List.length_drop]
        simp only [List.length_cons] at h
        omega
      have hd : (c :: rest).drop (k + 1) = rest.drop k := by
        simp [List.drop_succ_cons]
      calc ((c :: rest).take (k + 1) :: chunksOf k (rest.drop k)).flatten
          = (c :: rest).take (k + 1) ++ (chunksOf k (rest.drop k)).flatten := by
            rw [List.flatten_cons]
        _ = (c :: rest).take (k + 1) ++ rest.drop k := by rw [ih _ hlen]
        _ = (c :: rest).take (k + 1) ++ (c :: rest).drop (k + 1) := by rw [hd]
        _ = c :: rest := List.take_append_drop _ _

theorem chunksOf_join (k : Nat) (cs : List Char) : (chunksOf k cs).flatten = cs :=
  chunksOf_join_aux k cs.length cs le_rfl

theorem chunksOf_mem_length_aux (k : Nat) :
    ∀ (n : Nat) (cs : List Char), cs.length ≤ n →
      ∀ ch ∈ chunksOf k cs, ch.length ≤ k + 1 := by
  intro n
  induction n with
  | zero =>
    intro cs h ch hch
    cases cs with
    | nil => simp [chunksOf] at hch
    | cons c rest => simp at h
  | succ n ih =>
    intro cs h ch hch
    cases cs with
    | nil => simp [chunksOf] at hch
    | cons c rest =>
      rw [chunksOf] at hch
      rcases List.mem_cons.mp hch with h1 | h1
      · rw [h1]
        exact List.length_take_le _ _
      · have hlen : (rest.drop k).length ≤ n := by
          simp only [List.length_drop]
          simp only [List.length_cons] at h
          omega
        exact ih _ hlen ch h1

theorem chunksOf_mem_length (k : Nat) (cs : List Char) :
    ∀ ch ∈ chunksOf k cs, ch.length ≤ k + 1 :=
  chunksOf_mem_length_aux k cs.length cs le_rfl

/-! Claim theorems. -/

/-- C7: `decrement_user_queue_count` (the release operation) decrements a
positive counter by exactly 1, leaves a zero counter at 0, never produces
a negative counter, and removes the user's map entry exactly when the
post-release count is 0. -/
theorem release_floor_semantics (s : BotState) (u : Int) :
    (0 < dget s.user_queue_count u →
      dget (decrement_user_queue_count s u).2.user_queue_count u =
        dget s.user_queue_count u - 1) ∧
    (dget s.user_queue_count u = 0 →
      dget (decrement_user_queue_count s u).2.user_queue_count u = 0) ∧
    (0 ≤ dget s.user_queue_count u →
      0 ≤ dget (decrement_user_queue_count s u).2.user_queue_count u) ∧
    ((decrement_user_queue_count s u).2.user_queue_count.lookup u = none ↔
      dget (decrement_user_queue_count s u).2.user_queue_count u = 0) := by
  refine ⟨?_, ?_, ?_, decrement_lookup_none_iff s u⟩ <;>
    intro h <;> rw [decrement_dget_self]
  · rw [if_pos h]
  · rw [h]
    norm_num
  · split_ifs <;> omega

/-- Witness for C7 at the concrete state `{7 ↦ 2}`: all three hypotheses
discharged at that state. -/
theorem release_floor_semantics_check :
    (0 < dget [(7, 2)] 7 ∧
      dget (decrement_user_queue_count ⟨0, 0, 0, [], [(7, 2)]⟩ 7).2.user_queue_count 7 =
        dget [(7, 2)] 7 - 1) ∧
    (dget [(5, 1)] 7 = 0 ∧
      dget (decrement_user_queue_count ⟨0, 0, 0, [], [(5, 1)]⟩ 7).2.user_queue_count 7 = 0) ∧
    (0 ≤ dget [(7, 2)] 7 ∧
      0 ≤ dget (decrement_user_queue_count ⟨0, 0, 0, [], [(7, 2)]⟩ 7).2.user_queue_count 7) :=
  ⟨⟨by decide, (release_floor_semantics ⟨0, 0, 0, [], [(7, 2)]⟩ 7).1 (by decide)⟩,
   ⟨by decide, (release_floor_semantics ⟨0, 0, 0, [], [(5, 1)]⟩ 7).2.1 (by decide)⟩,
   ⟨by decide, (release_floor_semantics ⟨0, 0, 0, [], [(7, 2)]⟩ 7).2.2.1 (by decide)⟩⟩

/-- C6 as stated is false on the code: `get_user_queue_count` for a user
absent from the map is a `defaultdict` read, which inserts an explicit
`(user, 0)` entry — the read mutates the map, and the reachable state
after it contains an entry with count 0. -/
theorem counter_read_counterexample :
    (⟨0, 100, 2, [], []⟩ : BotState).user_queue_count = [] ∧
    (get_user_queue_count ⟨0, 100, 2, [], []⟩ 1).2.user_queue_count = [(1, 0)] := by
  exact ⟨rfl, rfl⟩

/-- C6 amended: reading a user's counter never changes the counter value
observed for any user, and the increment/decrement mutations preserve
strict positivity of all stored entries; but a defaultdict read of an
absent key does insert an explicit zero entry into the backing map. -/
theorem counter_read_preservation (s : BotState) (c : Int) :
    (∀ u, dget (get_user_queue_count s c).2.user_queue_count u =
      dget s.user_queue_count u) ∧
    (∀ u, dget (can_user_submit_job s c).2.user_queue_count u =
      dget s.user_queue_count u) ∧
    ((∀ p ∈ s.user_queue_count, 0 < p.2) →
      (∀ p ∈ (increment_user_queue_count s c).2.user_queue_count, 0 < p.2) ∧
      (∀ p ∈ (decrement_user_queue_count s c).2.user_queue_count, 0 < p.2)) :=
  ⟨fun u => get_user_queue_count_dget s c u,
   fun u => can_user_submit_job_dget s c u,
   fun h => ⟨increment_allpos s c h, decrement_allpos s c h⟩⟩

/-- Witness for C6's amended claim at the concrete state `{3 ↦ 1}`. -/
theorem counter_read_preservation_check :
    (∀ p ∈ ([(3, 1)] : List (Int × Int)), 0 < p.2) ∧
    (∀ p ∈ (increment_user_queue_count ⟨0, 5, 2, [], [(3, 1)]⟩ 3).2.user_queue_count,
      0 < p.2) :=
  ⟨by decide, ((counter_read_preservation ⟨0, 5, 2, [], [(3, 1)]⟩ 3).2.2 (by decide)).1⟩

/-- C2: with the global gate open and a well-formed filename, an
admission attempt for a user with current count `c` below the ceiling `K`
succeeds, sets the counter to exactly `c + 1` and enqueues the job; an
attempt with `c ≥ K` fails with the rate-limit message, leaves the
counter at exactly `c` and the queue unchanged. -/
theorem per_user_admission_transition (s : BotState) (chat mid pmid : Int)
    (audio : AudioMessage) (fname : String)
    (hfull : is_queue_full s = false)
    (hname : resolveFileName audio = some fname) :
    (dget s.user_queue_count chat < s.max_jobs_per_user_in_queue →
      ∃ s2 : BotState,
        queue_audio_job s chat mid audio pmid = some (true, none, s2) ∧
        dget s2.user_queue_count chat = dget s.user_queue_count chat + 1 ∧
        s2.processing_queue = s.processing_queue ++
          [{ chat_id := chat, message_id := mid, file_id := audio.file_id,
             file_name := fname, mime_type := audio.mime_type,
             file_size := audio.file_size, processing_msg_id := pmid }]) ∧
    (s.max_jobs_per_user_in_queue ≤ dget s.user_queue_count chat →
      ∃ s2 : BotState,
        queue_audio_job s chat mid audio pmid =
          some (false, some (rateLimitText s.max_jobs_per_user_in_queue
            (dget s.user_queue_count chat)), s2) ∧
        dget s2.user_queue_count chat = dget s.user_queue_count chat ∧
        s2.processing_queue = s.processing_queue) := by
  constructor
  · intro hlt
    have hc1 : (can_user_submit_job s chat).1 = true := by
      rw [can_user_submit_job_fst]
      exact decide_eq_true hlt
    refine ⟨{ (increment_user_queue_count (can_user_submit_job s chat).2 chat).2 with
              processing_queue :=
                (increment_user_queue_count (can_user_submit_job s chat).2 chat).2.processing_queue ++
                  [{ chat_id := chat, message_id := mid, file_id := audio.file_id,
                     file_name := fname, mime_type := audio.mime_type,
                     file_size := audio.file_size, processing_msg_id := pmid }] },
            ?_, ?_, ?_⟩
    · unfold queue_audio_job
      rw [hfull]
      dsimp only
      rw [hc1, hname]
      simp only [Bool.not_true, Bool.false_eq_true, if_false]
    · show dget (increment_user_queue_count (can_user_submit_job s chat).2 chat).2.user_queue_count chat
        = dget s.user_queue_count chat + 1
      rw [increment_dget_self, can_user_submit_job_dget]
    · rfl
  · intro hge
    have hc1 : (can_user_submit_job s chat).1 = false := by
      rw [can_user_submit_job_fst]
      exact decide_eq_false (not_lt.mpr hge)
    refine ⟨(get_user_queue_count (can_user_submit_job s chat).2 chat).2, ?_, ?_, ?_⟩
    · unfold queue_audio_job
      rw [hfull]
      dsimp only
      rw [hc1]
      simp only [Bool.not_false, if_true]
      rw [get_user_queue_count_fst, can_user_submit_job_dget]
      simp only [Bool.false_eq_true, if_false]
    · show dget (get_user_queue_count (can_user_submit_job s chat).2 chat).2.user_queue_count chat
        = dget s.user_queue_count chat
      rw [get_user_queue_count_dget, can_user_submit_job_dget]
    · rfl

/-- Witness for C2 at an empty initial state (count 0, ceiling 2) and at
a saturated state (count 2, ceiling 2). -/
theorem per_user_admission_transition_check :
    (dget ([] : List (Int × Int)) 1 < 2 ∧
      ∃ s2 : BotState,
        queue_audio_job ⟨100, 10, 2, [], []⟩ 1 5 ⟨"f", 9, "audio/mpeg", none, "uid"⟩ 6 =
          some (true, none, s2) ∧
        dget s2.user_queue_count 1 = dget ([] : List (Int × Int)) 1 + 1 ∧
        s2.processing_queue = [] ++
          [{ chat_id := 1, message_id := 5, file_id := "f",
             file_name := "audio_file_uid.mpeg", mime_type := "audio/mpeg",
             file_size := 9, processing_msg_id := 6 }]) ∧
    ((2 : Int) ≤ dget [((1 : Int), (2 : Int))] 1 ∧
      ∃ s2 : BotState,
        queue_audio_job ⟨100, 10, 2, [], [(1, 2)]⟩ 1 5 ⟨"f", 9, "audio/mpeg", none, "uid"⟩ 6 =
          some (false, some (rateLimitText 2 (dget [((1 : Int), (2 : Int))] 1)), s2) ∧
        dget s2.user_queue_count 1 = dget [((1 : Int), (2 : Int))] 1 ∧
        s2.processing_queue = []) :=
  ⟨⟨by decide,
    (per_user_admission_transition ⟨100, 10, 2, [], []⟩ 1 5 6
      ⟨"f", 9, "audio/mpeg", none, "uid"⟩ "audio_file_uid.mpeg" (by decide) (by rfl)).1
      (by decide)⟩,
   ⟨by decide,
    (per_user_admission_transition ⟨100, 10, 2, [], [(1, 2)]⟩ 1 5 6
      ⟨"f", 9, "audio/mpeg", none, "uid"⟩ "audio_file_uid.mpeg" (by decide) (by rfl)).2
      (by decide)⟩⟩

/-- C9: admission evaluates the global queue-capacity gate first and the
per-user ceiling second; each rejection returns the corresponding message
(stating the capacity, respectively the ceiling and the user's current
count), creates no job and leaves the queue and every user's counter
value unchanged. -/
theorem admission_gate_order (s : BotState) (chat mid pmid : Int) (audio : AudioMessage) :
    (is_queue_full s = true →
      queue_audio_job s chat mid audio pmid =
        some (false, some (queueFullText s.max_queue_size), s) ∧
      containsStr (queueFullText s.max_queue_size) (toString s.max_queue_size) = true) ∧
    (is_queue_full s = false →
      s.max_jobs_per_user_in_queue ≤ dget s.user_queue_count chat →
      ∃ s2 : BotState,
        queue_audio_job s chat mid audio pmid =
          some (false, some (rateLimitText s.max_jobs_per_user_in_queue
            (dget s.user_queue_count chat)), s2) ∧
        s2.processing_queue = s.processing_queue ∧
        (∀ u, dget s2.user_queue_count u = dget s.user_queue_count u) ∧
        containsStr (rateLimitText s.max_jobs_per_user_in_queue (dget s.user_queue_count chat))
          (toString s.max_jobs_per_user_in_queue) = true ∧
        containsStr (rateLimitText s.max_jobs_per_user_in_queue (dget s.user_queue_count chat))
          (toString (dget s.user_queue_count chat)) = true) := by
  constructor
  · intro hfull
    constructor
    · unfold queue_audio_job
      rw [hfull]
      simp only [if_true]
    · unfold queueFullText
      exact containsStr_of_middle "Sorry, the processing queue is full ("
        (toString s.max_queue_size) " files). Please try again later."
  · intro hfull hge
    have hc1 : (can_user_submit_job s chat).1 = false := by
      rw [can_user_submit_job_fst]
      exact decide_eq_false (not_lt.mpr hge)
    refine ⟨(get_user_queue_count (can_user_submit_job s chat).2 chat).2, ?_, rfl, ?_, ?_, ?_⟩
    · unfold queue_audio_job
      rw [hfull]
      dsimp only
      rw [hc1]
      simp only [Bool.not_false, if_true]
      rw [get_user_queue_count_fst, can_user_submit_job_dget]
      simp only [Bool.false_eq_true, if_false]
    · intro u
      rw [get_user_queue_count_dget, can_user_submit_job_dget]
    · unfold rateLimitText
      have := containsStr_of_middle "You have reached the maximum limit of "
        (toString s.max_jobs_per_user_in_queue)
        (" audio files in the queue. Please wait for your current jobs to complete. (Currently in queue: " ++
          toString (dget s.user_queue_count chat) ++ ")")
      simpa [String.append_assoc] using this
    · unfold rateLimitText
      have := containsStr_of_middle
        ("You have reached the maximum limit of " ++ toString s.max_jobs_per_user_in_queue ++
          " audio files in the queue. Please wait for your current jobs to complete. (Currently in queue: ")
        (toString (dget s.user_queue_count chat)) ")"
      simpa [String.append_assoc] using this

/-- Witness for C9: the full-queue rejection at capacity 0 and the
per-user rejection at ceiling 2 with current count 2. -/
theorem admission_gate_order_check :
    (is_queue_full ⟨100, 0, 2, [], []⟩ = true ∧
      queue_audio_job ⟨100, 0, 2, [], []⟩ 1 5 ⟨"f", 9, "audio/mpeg", none, "uid"⟩ 6 =
        some (false, some (queueFullText 0), ⟨100, 0, 2, [], []⟩)) ∧
    (is_queue_full ⟨100, 10, 2, [], [(1, 2)]⟩ = false ∧
      (2 : Int) ≤ dget [((1 : Int), (2 : Int))] 1 ∧
      ∃ s2 : BotState,
        queue_audio_job ⟨100, 10, 2, [], [(1, 2)]⟩ 1 5 ⟨"f", 9, "audio/mpeg", none, "uid"⟩ 6 =
          some (false, some (rateLimitText 2 (dget [((1 : Int), (2 : Int))] 1)), s2) ∧
        s2.processing_queue = [] ∧
        (∀ u, dget s2.user_queue_count u = dget [((1 : Int), (2 : Int))] u) ∧
        containsStr (rateLimitText 2 (dget [((1 : Int), (2 : Int))] 1)) (toString (2 : Int)) = true ∧
        containsStr (rateLimitText 2 (dget [((1 : Int), (2 : Int))] 1))
          (toString (dget [((1 : Int), (2 : Int))] 1)) = true) :=
  ⟨⟨by decide,
    ((admission_gate_order ⟨100, 0, 2, [], []⟩ 1 5 6 ⟨"f", 9, "audio/mpeg", none, "uid"⟩).1
      (by decide)).1⟩,
   ⟨by decide, by decide,
    (admission_gate_order ⟨100, 10, 2, [], [(1, 2)]⟩ 1 5 6
      ⟨"f", 9, "audio/mpeg", none, "uid"⟩).2 (by decide) (by decide)⟩⟩

/-- C10: for an audio message with no display name and a MIME type other
than `audio/ogg`, filename synthesis is defined exactly when the MIME
type contains a `/` (the synthesized name being
`audio_file_<uniqueId>.<subtype>`); without a `/`, the subtype indexing
is out of bounds and admission raises (returns no `(success, error)`
result) instead of rejecting. -/
theorem filename_synthesis_domain (audio : AudioMessage)
    (hfn : audio.file_name = none ∨ audio.file_name = some "")
    (hogg : audio.mime_type ≠ "audio/ogg") :
    ((resolveFileName audio).isSome = true ↔ '/' ∈ audio.mime_type.data) ∧
    ('/' ∈ audio.mime_type.data →
      ∃ sub, (splitChar '/' audio.mime_type.data).get? 1 = some sub ∧
        resolveFileName audio =
          some ("audio_file_" ++ audio.file_unique_id ++ "." ++ String.mk sub)) ∧
    (∀ (s : BotState) (chat mid pmid : Int), is_queue_full s = false →
      dget s.user_queue_count chat < s.max_jobs_per_user_in_queue →
      '/' ∉ audio.mime_type.data →
      queue_audio_job s chat mid audio pmid = none) := by
  have hfn' : audio.file_name.getD "" = "" := by
    rcases hfn with h | h <;> simp [h]
  have hres : resolveFileName audio =
      match (splitChar '/' audio.mime_type.data).get? 1 with
      | some sub => some ("audio_file_" ++ audio.file_unique_id ++ "." ++ String.mk sub)
      | none => none := by
    unfold resolveFileName
    rw [hfn']
    rw [if_neg (by simp : ¬ ("" : String) ≠ "")]
    rw [if_neg hogg]
  refine ⟨?_, ?_, ?_⟩
  · rw [hres, ← splitChar_get1_isSome '/' audio.mime_type.data]
    cases h : (splitChar '/' audio.mime_type.data).get? 1 <;> simp [h]
  · intro hmem
    have hs := (splitChar_get1_isSome '/' audio.mime_type.data).mpr hmem
    cases h : (splitChar '/' audio.mime_type.data).get? 1 with
    | none => rw [h] at hs; simp at hs
    | some sub => exact ⟨sub, rfl, by rw [hres, h]⟩
  · intro s chat mid pmid hfull hlt hmem
    have hnone : resolveFileName audio = none := by
      rw [hres]
      cases h : (splitChar '/' audio.mime_type.data).get? 1 with
      | none => rfl
      | some sub =>
        exfalso
        exact hmem ((splitChar_get1_isSome '/' audio.mime_type.data).mp (by rw [h]; rfl))
    have hc1 : (can_user_submit_job s chat).1 = true := by
      rw [can_user_submit_job_fst]
      exact decide_eq_true hlt
    unfold queue_audio_job
    rw [hfull]
    dsimp only
    rw [hc1, hnone]
    simp only [Bool.not_true, Bool.false_eq_true, if_false]

/-- Witness for C10: a nameless `audio/mpeg` message resolves to
`audio_file_uid.mpeg`, while a nameless message with MIME type `audio`
(no slash) makes admission raise. -/
theorem filename_synthesis_domain_check :
    ((resolveFileName ⟨"f", 9, "audio/mpeg", none, "uid"⟩).isSome = true ↔
      '/' ∈ ("audio/mpeg" : String).data) ∧
    (is_queue_full ⟨100, 10, 2, [], []⟩ = false ∧
      dget ([] : List (Int × Int)) 1 < 2 ∧
      '/' ∉ ("audio" : String).data ∧
      queue_audio_job ⟨100, 10, 2, [], []⟩ 1 5 ⟨"f", 9, "audio", none, "uid"⟩ 6 = none) :=
  ⟨(filename_synthesis_domain ⟨"f", 9, "audio/mpeg", none, "uid"⟩
      (Or.inl rfl) (by decide)).1,
   by decide, by decide, by decide,
   (filename_synthesis_domain ⟨"f", 9, "audio", none, "uid"⟩
      (Or.inl rfl) (by decide)).2.2 ⟨100, 10, 2, [], []⟩ 1 5 6
      (by decide) (by decide) (by decide)⟩

/-- Shape of every delivered message: the no-speech notice, or a
header-prefixed chunk. -/
theorem mem_sendTranscriptionResult (t : String) (msg : String)
    (h : msg ∈ sendTranscriptionResult t) :
    msg = noSpeechText ∨ msg.data.take headerText.data.length = headerText.data := by
  unfold sendTranscriptionResult at h
  by_cases hs : pyStrip t.data = []
  · rw [if_pos hs] at h
    exact Or.inl (by simpa using h)
  · rw [if_neg hs] at h
    rcases List.mem_map.mp h with ⟨ch, _, hch⟩
    right
    rw [← hch]
    have hdata : (headerText ++ String.mk ch).data = headerText.data ++ ch :=
      String.data_append _ _
    rw [hdata, List.take_left]

/-- C3: for a transcription whose stripped form is empty, exactly the
single no-speech message is sent; otherwise the concatenation of the
chunk bodies (each message minus the 16-character header) reproduces the
transcription exactly, every message carries the header, and every
message is at most 4096 characters long. -/
theorem chunk_delivery_roundtrip (t : String) :
    (pyStrip t.data = [] → sendTranscriptionResult t = [noSpeechText]) ∧
    (pyStrip t.data ≠ [] →
      ((sendTranscriptionResult t).map
        (fun msg => msg.data.drop headerText.data.length)).flatten = t.data ∧
      ∀ msg ∈ sendTranscriptionResult t,
        msg.data.length ≤ TELEGRAM_MESSAGE_LIMIT ∧
        msg.data.take headerText.data.length = headerText.data) := by
  constructor
  · intro hs
    unfold sendTranscriptionResult
    rw [if_pos hs]
  · intro hs
    have hdef : sendTranscriptionResult t =
        (chunksOf (TELEGRAM_MESSAGE_LIMIT - headerText.length - 1) t.data).map
          (fun ch => headerText ++ String.mk ch) := by
      unfold sendTranscriptionResult
      rw [if_neg hs]
    constructor
    · rw [hdef, List.map_map]
      have hmap : ((fun msg : String => msg.data.drop headerText.data.length) ∘
          (fun ch => headerText ++ String.mk ch)) = id := by
        funext ch
        simp only [Function.comp_apply, String.data_append, id_eq]
        rw [List.drop_left]
      rw [hmap, List.map_id]
      exact chunksOf_join _ t.data
    · intro msg hmsg
      rw [hdef] at hmsg
      rcases List.mem_map.mp hmsg with ⟨ch, hch, hmk⟩
      have hlen : ch.length ≤ TELEGRAM_MESSAGE_LIMIT - headerText.length - 1 + 1 :=
        chunksOf_mem_length _ t.data ch hch
      constructor
      · rw [← hmk, String.data_append, List.length_append]
        have hw : TELEGRAM_MESSAGE_LIMIT - headerText.length - 1 + 1 = 4080 := rfl
        rw [hw] at hlen
        have h16 : headerText.data.length = 16 := rfl
        have hmklen : (String.mk ch).data.length = ch.length := rfl
        have hlim : TELEGRAM_MESSAGE_LIMIT = 4096 := rfl
        rw [h16, hmklen, hlim]
        omega
      · rw [← hmk, String.data_append, List.take_left]


/-- Witness for C3 at a blank transcription and at `"hi"`. -/
theorem chunk_delivery_roundtrip_check :
    (pyStrip ("  " : String).data = [] ∧ sendTranscriptionResult "  " = [noSpeechText]) ∧
    (pyStrip ("hi" : String).data ≠ [] ∧
      ((sendTranscriptionResult "hi").map
        (fun msg => msg.data.drop headerText.data.length)).flatten = ("hi" : String).data) :=
  ⟨⟨by decide, (chunk_delivery_roundtrip "  ").1 (by decide)⟩,
   ⟨by decide, ((chunk_delivery_roundtrip "hi").2 (by decide)).1⟩⟩

/-- The classifier only ever produces one of its four fixed messages. -/
theorem classifyError_cases (e : String) :
    classifyError e = downloadFailText ∨ classifyError e = cannotProcessText ∨
    classifyError e = transcribeFailText ∨ classifyError e = genericErrorText := by
  unfold classifyError
  dsimp only
  split_ifs <;> simp

/-- C5: the error classifier is first-match-wins over the lowercased
error text: "download"/"file" first, then the reshape-tensor pair, then
"transcribe"/"whisper", else the generic message. -/
theorem error_classifier_precedence (e : String) :
    ((containsStr (pyLower e) "download" || containsStr (pyLower e) "file") = true →
      classifyError e = downloadFailText) ∧
    ((containsStr (pyLower e) "download" || containsStr (pyLower e) "file") = false →
      (containsStr (pyLower e) "cannot reshape tensor" ||
        containsStr (pyLower e) "tensor of 0 elements") = true →
      classifyError e = cannotProcessText) ∧
    ((containsStr (pyLower e) "download" || containsStr (pyLower e) "file") = false →
      (containsStr (pyLower e) "cannot reshape tensor" ||
        containsStr (pyLower e) "tensor of 0 elements") = false →
      (containsStr (pyLower e) "transcribe" || containsStr (pyLower e) "whisper") = true →
      classifyError e = transcribeFailText) ∧
    ((containsStr (pyLower e) "download" || containsStr (pyLower e) "file") = false →
      (containsStr (pyLower e) "cannot reshape tensor" ||
        containsStr (pyLower e) "tensor of 0 elements") = false →
      (containsStr (pyLower e) "transcribe" || containsStr (pyLower e) "whisper") = false →
      classifyError e = genericErrorText) := by
  unfold classifyError
  dsimp only
  refine ⟨fun h1 => ?_, fun h1 h2 => ?_, fun h1 h2 h3 => ?_, fun h1 h2 h3 => ?_⟩
  · simp [h1]
  · simp [h1, h2]
  · simp [h1, h2, h3]
  · simp [h1, h2, h3]

/-- Witness for C5 on four concrete error texts, one per precedence
class. -/
theorem error_classifier_precedence_check :
    classifyError "Network Download timeout" = downloadFailText ∧
    classifyError "cannot reshape tensor of 0 elements" = cannotProcessText ∧
    classifyError "Whisper exploded" = transcribeFailText ∧
    classifyError "boom" = genericErrorText :=
  ⟨(error_classifier_precedence "Network Download timeout").1 (by decide),
   (error_classifier_precedence "cannot reshape tensor of 0 elements").2.1
     (by decide) (by decide),
   (error_classifier_precedence "Whisper exploded").2.2.1 (by decide) (by decide) (by decide),
   (error_classifier_precedence "boom").2.2.2 (by decide) (by decide) (by decide)⟩

/-- A message that is neither the no-speech notice nor header-prefixed is
never delivered by the transcription sender. -/
theorem not_mem_sendTranscriptionResult (t : String) (msg : String)
    (h1 : msg ≠ noSpeechText)
    (h2 : msg.data.take headerText.data.length ≠ headerText.data) :
    msg ∉ sendTranscriptionResult t := by
  intro hmem
  rcases mem_sendTranscriptionResult t msg hmem with h | h
  · exact h1 h
  · exact h2 h

/-- Evaluation of the pipeline once the size recheck passes and the
download succeeds: only the decode outcome and the transcribe call
remain. -/
theorem process_audio_job_decode_eq (s : BotState) (job : Job) (env : PipeEnv)
    (hsize : job.file_size ≤ s.max_file_size)
    (hdl : env.download = Except.ok ()) :
    process_audio_job s job env =
      (if env.samples = 0 then
        { success := true, edits := [.downloading, .analyzing], sent := [emptyAudioText],
          releases := 0, transcribeCalled := false, state := s }
      else if (env.samples : ℚ) / (AUDIO_SAMPLE_RATE : ℚ) < MIN_AUDIO_DURATION then
        { success := true, edits := [.downloading, .analyzing], sent := [tooShortText],
          releases := 0, transcribeCalled := false, state := s }
      else
        match env.transcribe with
        | .error e =>
          { success := false,
            edits := [.downloading, .analyzing,
              .processing (max ((env.samples : ℚ) / (AUDIO_SAMPLE_RATE : ℚ) / 60 *
                TRANSCRIPTION_TIME_FACTOR) 2)],
            sent := [classifyError e], releases := 1, transcribeCalled := true,
            state := complete_job s job }
        | .ok text =>
          { success := true,
            edits := [.downloading, .analyzing,
              .processing (max ((env.samples : ℚ) / (AUDIO_SAMPLE_RATE : ℚ) / 60 *
                TRANSCRIPTION_TIME_FACTOR) 2)],
            sent := sendTranscriptionResult text, releases := 1, transcribeCalled := true,
            state := complete_job s job }) := by
  unfold process_audio_job
  rw [if_neg (not_lt.mpr hsize), hdl]

/-- C4: with the size recheck passed and the download successful, a
decode of 0 samples sends the empty-or-corrupted message and the job
reports success without transcribing; a positive sample count below 0.1 s
(at the 16 kHz reference rate) sends the too-short message and reports
success without transcribing; at or above 0.1 s the model's transcribe
call is reached and neither of those messages is sent. -/
theorem duration_classification (s : BotState) (job : Job) (env : PipeEnv)
    (hsize : job.file_size ≤ s.max_file_size)
    (hdl : env.download = Except.ok ()) :
    (env.samples = 0 →
      (process_audio_job s job env).sent = [emptyAudioText] ∧
      (process_audio_job s job env).success = true ∧
      (process_audio_job s job env).transcribeCalled = false) ∧
    (env.samples ≠ 0 →
      (env.samples : ℚ) / (AUDIO_SAMPLE_RATE : ℚ) < MIN_AUDIO_DURATION →
      (process_audio_job s job env).sent = [tooShortText] ∧
      (process_audio_job s job env).success = true ∧
      (process_audio_job s job env).transcribeCalled = false) ∧
    (MIN_AUDIO_DURATION ≤ (env.samples : ℚ) / (AUDIO_SAMPLE_RATE : ℚ) →
      (process_audio_job s job env).transcribeCalled = true ∧
      emptyAudioText ∉ (process_audio_job s job env).sent ∧
      tooShortText ∉ (process_audio_job s job env).sent) := by
  have hrec := process_audio_job_decode_eq s job env hsize hdl
  refine ⟨fun h0 => ?_, fun h0 hlt => ?_, fun hge => ?_⟩
  · rw [hrec, if_pos h0]
    exact ⟨rfl, rfl, rfl⟩
  · rw [hrec, if_neg h0, if_pos hlt]
    exact ⟨rfl, rfl, rfl⟩
  · have h0 : ¬ env.samples = 0 := by
      intro h
      rw [h] at hge
      norm_num [MIN_AUDIO_DURATION, AUDIO_SAMPLE_RATE] at hge
    have hnlt : ¬ ((env.samples : ℚ) / (AUDIO_SAMPLE_RATE : ℚ) < MIN_AUDIO_DURATION) :=
      not_lt.mpr hge
    rw [hrec, if_neg h0, if_neg hnlt]
    cases ht : env.transcribe with
    | error e =>
      refine ⟨rfl, ?_, ?_⟩ <;> intro hmem <;>
        rcases classifyError_cases e with h | h | h | h <;>
        simp only [List.mem_singleton] at hmem <;>
        rw [h] at hmem <;> exact absurd hmem (by decide)
    | ok text =>
      refine ⟨rfl, ?_, ?_⟩
      · exact not_mem_sendTranscriptionResult text emptyAudioText (by decide) (by decide)
      · exact not_mem_sendTranscriptionResult text tooShortText (by decide) (by decide)

/-- Witness for C4 at sample counts 0 (empty), 800 (0.05 s) and 16000
(1 s). -/
theorem duration_classification_check :
    ((process_audio_job ⟨100, 10, 2, [], [(1, 1)]⟩ ⟨1, 5, "f", "a.ogg", "audio/ogg", 9, 6⟩
        ⟨Except.ok (), 0, Except.ok "hi"⟩).sent = [emptyAudioText] ∧
      (process_audio_job ⟨100, 10, 2, [], [(1, 1)]⟩ ⟨1, 5, "f", "a.ogg", "audio/ogg", 9, 6⟩
        ⟨Except.ok (), 0, Except.ok "hi"⟩).success = true) ∧
    ((process_audio_job ⟨100, 10, 2, [], [(1, 1)]⟩ ⟨1, 5, "f", "a.ogg", "audio/ogg", 9, 6⟩
        ⟨Except.ok (), 800, Except.ok "hi"⟩).sent = [tooShortText] ∧
      (process_audio_job ⟨100, 10, 2, [], [(1, 1)]⟩ ⟨1, 5, "f", "a.ogg", "audio/ogg", 9, 6⟩
        ⟨Except.ok (), 800, Except.ok "hi"⟩).success = true) ∧
    (process_audio_job ⟨100, 10, 2, [], [(1, 1)]⟩ ⟨1, 5, "f", "a.ogg", "audio/ogg", 9, 6⟩
        ⟨Except.ok (), 16000, Except.ok "hi"⟩).transcribeCalled = true :=
  ⟨(fun h => ⟨h.1, h.2.1⟩)
    ((duration_classification ⟨100, 10, 2, [], [(1, 1)]⟩
      ⟨1, 5, "f", "a.ogg", "audio/ogg", 9, 6⟩ ⟨Except.ok (), 0, Except.ok "hi"⟩
      (by decide) rfl).1 rfl),
   (fun h => ⟨h.1, h.2.1⟩)
    ((duration_classification ⟨100, 10, 2, [], [(1, 1)]⟩
      ⟨1, 5, "f", "a.ogg", "audio/ogg", 9, 6⟩ ⟨Except.ok (), 800, Except.ok "hi"⟩
      (by decide) rfl).2.1 (by decide) (by norm_num [AUDIO_SAMPLE_RATE, MIN_AUDIO_DURATION])),
   ((duration_classification ⟨100, 10, 2, [], [(1, 1)]⟩
      ⟨1, 5, "f", "a.ogg", "audio/ogg", 9, 6⟩ ⟨Except.ok (), 16000, Except.ok "hi"⟩
      (by decide) rfl).2.2 (by norm_num [AUDIO_SAMPLE_RATE, MIN_AUDIO_DURATION])).1⟩

/-- C1 is violated by the code: `process_audio_job` returns from the
empty-audio and too-short successful terminal states and from the
size-recheck failure without ever calling `complete_job`, so those jobs
release the admission slot zero times (the counter entry `1 ↦ 1` is left
untouched), while the genuine-success and classified-failure paths
release it exactly once. -/
theorem admission_release_leak :
    ((process_audio_job ⟨100, 10, 2, [], [(1, 1)]⟩ ⟨1, 5, "f", "a.ogg", "audio/ogg", 9, 6⟩
        ⟨Except.ok (), 0, Except.ok "hi"⟩).success = true ∧
      (process_audio_job ⟨100, 10, 2, [], [(1, 1)]⟩ ⟨1, 5, "f", "a.ogg", "audio/ogg", 9, 6⟩
        ⟨Except.ok (), 0, Except.ok "hi"⟩).releases = 0 ∧
      (process_audio_job ⟨100, 10, 2, [], [(1, 1)]⟩ ⟨1, 5, "f", "a.ogg", "audio/ogg", 9, 6⟩
        ⟨Except.ok (), 0, Except.ok "hi"⟩).state.user_queue_count = [(1, 1)]) ∧
    ((process_audio_job ⟨100, 10, 2, [], [(1, 1)]⟩ ⟨1, 5, "f", "a.ogg", "audio/ogg", 9, 6⟩
        ⟨Except.ok (), 800, Except.ok "hi"⟩).success = true ∧
      (process_audio_job ⟨100, 10, 2, [], [(1, 1)]⟩ ⟨1, 5, "f", "a.ogg", "audio/ogg", 9, 6⟩
        ⟨Except.ok (), 800, Except.ok "hi"⟩).releases = 0) ∧
    ((process_audio_job ⟨100, 10, 2, [], [(1, 1)]⟩ ⟨1, 5, "f", "a.ogg", "audio/ogg", 200, 6⟩
        ⟨Except.ok (), 16000, Except.ok "hi"⟩).success = false ∧
      (process_audio_job ⟨100, 10, 2, [], [(1, 1)]⟩ ⟨1, 5, "f", "a.ogg", "audio/ogg", 200, 6⟩
        ⟨Except.ok (), 16000, Except.ok "hi"⟩).releases = 0) ∧
    ((process_audio_job ⟨100, 10, 2, [], [(1, 1)]⟩ ⟨1, 5, "f", "a.ogg", "audio/ogg", 9, 6⟩
        ⟨Except.ok (), 16000, Except.ok "hi"⟩).success = true ∧
      (process_audio_job ⟨100, 10, 2, [], [(1, 1)]⟩ ⟨1, 5, "f", "a.ogg", "audio/ogg", 9, 6⟩
        ⟨Except.ok (), 16000, Except.ok "hi"⟩).releases = 1) ∧
    ((process_audio_job ⟨100, 10, 2, [], [(1, 1)]⟩ ⟨1, 5, "f", "a.ogg", "audio/ogg", 9, 6⟩
        ⟨Except.error "download died", 0, Except.ok "hi"⟩).success = false ∧
      (process_audio_job ⟨100, 10, 2, [], [(1, 1)]⟩ ⟨1, 5, "f", "a.ogg", "audio/ogg", 9, 6⟩
        ⟨Except.error "download died", 0, Except.ok "hi"⟩).releases = 1) := by
  have h800 : process_audio_job ⟨100, 10, 2, [], [(1, 1)]⟩
      ⟨1, 5, "f", "a.ogg", "audio/ogg", 9, 6⟩ ⟨Except.ok (), 800, Except.ok "hi"⟩ =
      { success := true, edits := [.downloading, .analyzing], sent := [tooShortText],
        releases := 0, transcribeCalled := false, state := ⟨100, 10, 2, [], [(1, 1)]⟩ } := by
    rw [process_audio_job_decode_eq _ _ _ (by decide) rfl]
    rw [if_neg (by decide : ¬ (800 : Nat) = 0)]
    rw [if_pos (by norm_num [AUDIO_SAMPLE_RATE, MIN_AUDIO_DURATION] :
      ((800 : Nat) : ℚ) / (AUDIO_SAMPLE_RATE : ℚ) < MIN_AUDIO_DURATION)]
  have h16000 : process_audio_job ⟨100, 10, 2, [], [(1, 1)]⟩
      ⟨1, 5, "f", "a.ogg", "audio/ogg", 9, 6⟩ ⟨Except.ok (), 16000, Except.ok "hi"⟩ =
      { success := true,
        edits := [.downloading, .analyzing,
          .processing (max (((16000 : Nat) : ℚ) / (AUDIO_SAMPLE_RATE : ℚ) / 60 *
            TRANSCRIPTION_TIME_FACTOR) 2)],
        sent := sendTranscriptionResult "hi", releases := 1, transcribeCalled := true,
        state := complete_job ⟨100, 10, 2, [], [(1, 1)]⟩
          ⟨1, 5, "f", "a.ogg", "audio/ogg", 9, 6⟩ } := by
    rw [process_audio_job_decode_eq _ _ _ (by decide) rfl]
    rw [if_neg (by decide : ¬ (16000 : Nat) = 0)]
    rw [if_neg (by norm_num [AUDIO_SAMPLE_RATE, MIN_AUDIO_DURATION] :
      ¬ ((16000 : Nat) : ℚ) / (AUDIO_SAMPLE_RATE : ℚ) < MIN_AUDIO_DURATION)]
  refine ⟨⟨rfl, rfl, rfl⟩, ⟨?_, ?_⟩, ⟨rfl, rfl⟩, ⟨?_, ?_⟩, ⟨rfl, rfl⟩⟩
  · rw [h800]
  · rw [h800]
  · rw [h16000]
  · rw [h16000]

/-- C8 as stated is false: the failure message is the fixed string
naming the default 2 GB limit, not the configured one — with
`max_file_size = 1000` bytes the rejection message still says "2 GB" and
does not mention the configured limit. -/
theorem size_validation_counterexample :
    validate_audio_file ⟨1000, 100, 2, [], []⟩ ⟨"f", 2000, "audio/ogg", none, "u"⟩ =
      some tooLargeText ∧
    containsStr tooLargeText (toString (1000 : Int)) = false ∧
    containsStr tooLargeText "2 GB" = true := by
  refine ⟨rfl, ?_, ?_⟩ <;> decide

/-- C8 amended: size validation fails exactly when the declared size
strictly exceeds the configured limit (a size equal to the limit passes),
and the failure message is the constant text naming the default 2 GB
limit. -/
theorem size_validation_amended (s : BotState) (audio : AudioMessage) :
    (validate_audio_file s audio = some tooLargeText ↔
      s.max_file_size < audio.file_size) ∧
    (audio.file_size ≤ s.max_file_size → validate_audio_file s audio = none) := by
  unfold validate_audio_file
  constructor
  · by_cases h : s.max_file_size < audio.file_size
    · simp [h]
    · simp [h]
  · intro hle
    rw [if_neg (not_lt.mpr hle)]

/-- Witness for C8's amended claim: a file of exactly the configured
limit passes. -/
theorem size_validation_amended_check :
    (2000 : Int) ≤ 2000 ∧
    validate_audio_file ⟨2000, 100, 2, [], []⟩ ⟨"f", 2000, "audio/ogg", none, "u"⟩ = none :=
  ⟨by decide,
   (size_validation_amended ⟨2000, 100, 2, [], []⟩ ⟨"f", 2000, "audio/ogg", none, "u"⟩).2
     (by decide)⟩

end TWBot
